import Mathlib

/-
Verification of the log-discovery engine (log_discovery.py / log_source.py).

The Python code is shallowly embedded as pure Lean functions.  Filesystem
state is passed explicitly through small structures of total functions
(`FS`, `FileFS`), reflecting that the embedded operations only ever observe
the filesystem through `os.path.exists`, `os.path.getmtime`, `os.path.getsize`,
file reads, and directory globs.  Python exceptions are modelled with
`Except`; a Python function that catches all exceptions and returns a value
is embedded as a total Lean function.
-/

namespace LogDiscovery

/-! ## Path primitives (posixpath semantics, as used by CPython on Linux) -/

/-- Python `str.split("/")` on the character list of a string: always at
least one component, empty components between adjacent separators. -/
def splitSlash : List Char → List (List Char)
  | [] => [[]]
  | c :: cs =>
    let r := splitSlash cs
    if c = '/' then [] :: r
    else
      match r with
      | [] => [[c]]
      | h :: t => (c :: h) :: t

/-- `"/".join(comps)` on character lists. -/
def joinSlash : List (List Char) → List Char
  | [] => []
  | [c] => c
  | c :: cs => c ++ '/' :: joinSlash cs

/-- Embedding of `posixpath.normpath`.  Mirrors CPython: empty path becomes
".", one or two leading slashes are preserved (three or more collapse to
one), components "" and "." are dropped, ".." pops a previous component
unless there is nothing to pop (and leading ".." survives only for relative
paths). -/
def normpath (p : String) : String :=
  if p = "" then "."
  else
    let cs := p.data
    let initialSlashes : Nat :=
      if cs.take 1 = ['/'] then
        if cs.take 2 = ['/', '/'] ∧ cs.take 3 ≠ ['/', '/', '/'] then 2 else 1
      else 0
    let comps := splitSlash cs
    let newComps : List (List Char) := comps.foldl (fun acc comp =>
      if comp = [] ∨ comp = ['.'] then acc
      else if comp ≠ ['.', '.'] ∨ (initialSlashes = 0 ∧ acc = []) ∨
              (acc ≠ [] ∧ acc.getLast? = some ['.', '.']) then
        acc ++ [comp]
      else if acc ≠ [] then acc.dropLast
      else acc) []
    let out := List.replicate initialSlashes '/' ++ joinSlash newComps
    if out = [] then "." else String.mk out

/-- Embedding of `posixpath.isabs`: a POSIX path is absolute iff it starts
with a slash. -/
def isabs (p : String) : Bool := p.data.take 1 = ['/']

/-- Embedding of `posixpath.dirname`: everything up to (not including) the
final slash, with trailing slashes stripped unless the head is nothing but
slashes. -/
def dirname (p : String) : String :=
  let cs := p.data
  let head : List Char :=
    match cs.reverse.findIdx? (fun c => c = '/') with
    | none => []
    | some k => cs.take (cs.length - k)
  if head ≠ [] ∧ head.any (fun c => c ≠ '/') then
    String.mk ((head.reverse.dropWhile (fun c => c = '/')).reverse)
  else String.mk head

/-! ## Data model for `LogDiscoverer` (log_discovery.py) -/

/-- One discovered log entry, as built by `LogDiscoverer.add_log_source`
(log_discovery.py lines 436-451).  Optional fields model dict keys that are
only present when the corresponding information was obtained. -/
structure LogEntry where
  type : String
  name : String
  path : String
  format : String
  labels : List (String × String)
  existsF : Option Bool
  last_modified : Option String
  size : Option Nat
  checksum : Option String
deriving DecidableEq

/-- The mutable state of a `LogDiscoverer`: `discovered_logs` (the inventory,
appended at the end) and `log_paths_added` (the dedup set, modelled as the
list of strings `set.add` has been called with; `add` is only reached after
a failed membership check, so list-cons is faithful set insertion). -/
structure DiscState where
  discovered_logs : List LogEntry
  log_paths_added : List String
deriving DecidableEq

/-- State of a freshly constructed `LogDiscoverer` (log_discovery.py lines
135-136). -/
def initState : DiscState := { discovered_logs := [], log_paths_added := [] }

/-- log_discovery.py line 399: `"*" in path or "?" in path`. -/
def has_wildcards (path : String) : Bool :=
  path.data.contains '*' || path.data.contains '?'

/-- Abstract filesystem as observed by `add_log_source`:
`pathExists` models `os.path.exists` (never raises in practice);
`mtime`/`size` model `os.path.getmtime`/`os.path.getsize`, whose exceptions
are modelled as `Except.error`; `checksum` models `_compute_checksum`, which
catches internally and returns `None` on any failure. -/
structure FS where
  pathExists : String → Bool
  mtime : String → Except Unit String
  size : String → Except Unit Nat
  checksum : String → Option String

/-- A concrete filesystem on which nothing exists and every stat fails;
used to evaluate the model on closed inputs. -/
def fsNone : FS :=
  { pathExists := fun _ => false
    mtime := fun _ => Except.error ()
    size := fun _ => Except.error ()
    checksum := fun _ => none }

/-- The metadata block of log_discovery.py lines 421-433: on `getmtime`
failure nothing is recorded; on `getsize` failure only the mtime is
recorded; the checksum is only computed for files smaller than 10MB. -/
def enrich (fs : FS) (path : String) : Option String × Option Nat × Option String :=
  match fs.mtime path with
  | Except.error _ => (none, none, none)
  | Except.ok m =>
    match fs.size path with
    | Except.error _ => (some m, none, none)
    | Except.ok s =>
      if s < 10 * 1024 * 1024 then (some m, some s, fs.checksum path)
      else (some m, some s, none)

/-- Python truthiness of the guards `if last_modified:` / `if checksum:`
(log_discovery.py lines 446, 450): an empty string is falsy, so the dict key
is omitted for it just as for `None`. -/
def truthyOpt (s : Option String) : Option String :=
  match s with
  | some "" => none
  | x => x

/-- The log entry `add_log_source` constructs for the given arguments
(log_discovery.py lines 391-451), independent of the dedup check:
default-fills `labels`, adds the `source` label when absent (dict insertion
appends the new key), normalizes non-wildcard paths with `os.path.normpath`
(total, so the `except: pass` at line 406 is dead), resolves `exists`, and
performs the opportunistic enrichment for existing non-wildcard files. -/
def builtEntry (fs : FS) (source_type name path format : String)
    (labels : Option (List (String × String))) (exists0 : Option Bool) : LogEntry :=
  let labels1 := labels.getD []
  let labels2 :=
    if (List.lookup "source" labels1).isSome then labels1
    else labels1 ++ [("source", source_type)]
  let hw := has_wildcards path
  let path1 := if hw then path else normpath path
  let exists1 := if exists0.isNone && !hw then some (fs.pathExists path1) else exists0
  let enr := if exists1 == some true && !hw then enrich fs path1 else (none, none, none)
  { type := source_type
    name := name
    path := path1
    format := format
    labels := labels2
    existsF := exists1
    last_modified := truthyOpt enr.1
    size := enr.2.1
    checksum := truthyOpt enr.2.2 }

/-- Embedding of `LogDiscoverer.add_log_source` (log_discovery.py lines
377-457).  The entry construction is factored into `builtEntry` (it is pure,
so hoisting it above the dedup check preserves semantics).  Control flow:
for a non-wildcard path whose normalization is already in the dedup set,
return `None` with the state untouched (lines 413-415); otherwise append the
entry, and additionally record the normalized path in the dedup set when the
path has no wildcards (lines 417-419, 453). -/
def add_log_source (fs : FS) (st : DiscState) (source_type name path format : String)
    (labels : Option (List (String × String))) (exists0 : Option Bool) :
    DiscState × Option LogEntry :=
  let entry := builtEntry fs source_type name path format labels exists0
  let hw := has_wildcards path
  let path1 := if hw then path else normpath path
  if hw = false ∧ path1 ∈ st.log_paths_added then
    (st, none)
  else if hw then
    ({ st with discovered_logs := st.discovered_logs ++ [entry] }, some entry)
  else
    ({ discovered_logs := st.discovered_logs ++ [entry],
       log_paths_added := path1 :: st.log_paths_added }, some entry)

/-- Embedding of `LogDiscoverer.is_log_already_added` (log_discovery.py lines
459-468): a bare membership test on the tracking set, no normalization. -/
def is_log_already_added (st : DiscState) (path : String) : Bool :=
  st.log_paths_added.contains path

/-- The arguments of one `add_log_source` call. -/
structure Call where
  source_type : String
  name : String
  path : String
  format : String
  labels : Option (List (String × String))
  exists0 : Option Bool
deriving DecidableEq

/-- State after one `add_log_source` call (the returned entry discarded). -/
def applyCall (fs : FS) (st : DiscState) (c : Call) : DiscState :=
  (add_log_source fs st c.source_type c.name c.path c.format c.labels c.exists0).1

/-- Run a sequence of `add_log_source` calls, collecting the return value of
each call. -/
def runCallsResults (fs : FS) : List Call → DiscState → DiscState × List (Option LogEntry)
  | [], st => (st, [])
  | c :: cs, st =>
    let r := add_log_source fs st c.source_type c.name c.path c.format c.labels c.exists0
    let rest := runCallsResults fs cs r.1
    (rest.1, r.2 :: rest.2)

/-- Final state of a sequence of `add_log_source` calls. -/
def runCalls (fs : FS) (calls : List Call) (st : DiscState) : DiscState :=
  (runCallsResults fs calls st).1

/-- The paths currently stored in the inventory. -/
def pathsOf (st : DiscState) : List String := st.discovered_logs.map LogEntry.path

/-! ## `discover_all` (log_discovery.py lines 165-239)

The per-run timeout is a SIGALRM whose handler raises the custom
`TimeoutError` defined in log_source.py (lines 18-25) at whatever program
point the alarm interrupts.  `TimeoutError` subclasses `Exception`, so which
handler receives it depends on where it is raised:

* inside a plugin's `discover()` call it is caught by the per-plugin
  `except Exception` at line 201, which logs and continues the loop;
* outside the per-plugin `try` (e.g. at the `self.log` call at line 197,
  before the next plugin is entered) it propagates to the outer
  `except TimeoutError` at line 224, which returns the partial result with
  `metadata.status = "incomplete"`.

The embedding makes the alarm's firing point explicit: a plugin whose run
is interrupted by the alarm is a plugin whose modelled outcome is
`Except.error PyExc.timeoutError` (raised after whatever entries it already
added), and `alarmAt = some i` models the alarm firing between plugins, at
the top of loop iteration `i`.  A plugin's exceptional outcome never
escapes the loop, exactly as in the source. -/

/-- Python exceptions relevant to the embedded code. -/
inductive PyExc
  | timeoutError
  | nameError
  | otherError
deriving DecidableEq

/-- The include/exclude filtering of log_discovery.py lines 189-193.  Python
truthiness: `if self.include_types:` skips the filter for `None` and for an
empty list alike, hence the nonempty-list patterns. -/
def applyIncludeExclude {α : Type} (include_types exclude_types : Option (List String))
    (sources : List (String × α)) : List (String × α) :=
  let s1 :=
    match include_types with
    | some (i :: is) => sources.filter (fun kv => List.contains (i :: is) kv.1)
    | _ => sources
  match exclude_types with
  | some (e :: es) => s1.filter (fun kv => !(List.contains (e :: es) kv.1))
  | _ => s1

/-- A plugin's `discover()` as observed by the orchestrator: it mutates the
discoverer state through `add_log_source` and either returns a count or
raises. -/
def PluginRun : Type := DiscState → DiscState × Except PyExc Nat

/-- The per-plugin loop of log_discovery.py lines 196-204.  The plugin's
outcome — including a raised `TimeoutError` — is swallowed by the
`except Exception` handler at line 201, so only the state survives.
`alarmAt = some i` makes the iteration-`i` entry point raise instead
(modelling SIGALRM between plugins); the `Bool` reports whether that
happened, i.e. whether the outer `except TimeoutError` is reached. -/
def runSourcesLoop : List (String × PluginRun) → Option Nat → DiscState → DiscState × Bool
  | [], _, st => (st, false)
  | (_, pl) :: ps, alarmAt, st =>
    if alarmAt = some 0 then (st, true)
    else runSourcesLoop ps (alarmAt.map (fun n => n - 1)) (pl st).1

/-- The result dict of `discover_all`: the normal path (lines 211-219) has no
`status`/`error` keys; the timeout path (lines 227-236) carries
`status = "incomplete"`.  Environment-only metadata (timestamp, version,
hostname) is not modelled. -/
structure RunResult where
  status : Option String
  error : Option String
  sources : List LogEntry

/-- Embedding of `LogDiscoverer.discover_all` (log_discovery.py lines
165-239): filter the plugin set, run the per-plugin loop, and package the
inventory; module discovery and cache persistence are environment effects
with no bearing on the returned structure. -/
def discover_all (include_types exclude_types : Option (List String))
    (plugins : List (String × PluginRun)) (alarmAt : Option Nat) (st0 : DiscState) :
    RunResult :=
  let sources := applyIncludeExclude include_types exclude_types plugins
  let r := runSourcesLoop sources alarmAt st0
  if r.2 then
    { status := some "incomplete"
      error := some "Timeout during discovery process"
      sources := r.1.discovered_logs }
  else
    { status := none, error := none, sources := r.1.discovered_logs }

/-! ## `LogSource` path utilities (log_source.py) -/

/-- The exceptions `_load_file_content` distinguishes (log_source.py lines
103-108); `other` stands for the catch-all `except Exception`. -/
inductive ReadErr
  | timeout
  | decodeError
  | permission
  | notFound
  | other
deriving DecidableEq

/-- Filesystem as observed by the `LogSource` helpers: `isfile`/`access_r`
model `os.path.isfile`/`os.access(..., R_OK)`; `read` models
`open(path).read()` under the 5-second alarm, with every failure mode as an
`Except.error`. -/
structure FileFS where
  isfile : String → Bool
  access_r : String → Bool
  read : String → Except ReadErr String

/-- Embedding of `LogSource._file_readable` (log_source.py lines 67-79); the
`try/except` is dead weight for total observations. -/
def file_readable (fs : FileFS) (path : String) : Bool :=
  fs.isfile path && fs.access_r path

/-- Embedding of `LogSource._load_file_content` (log_source.py lines
81-110): unreadable files short-circuit to `""`; every exception from the
timed read — `TimeoutError`, `UnicodeDecodeError`, `PermissionError`,
`FileNotFoundError`, and the catch-all — is converted to `""`.  The Lean
function is total: no exception escapes. -/
def load_file_content (fs : FileFS) (path : String) : String :=
  if file_readable fs path = false then ""
  else
    match fs.read path with
    | Except.ok content => content
    | Except.error _ => ""

/-- Embedding of `LogSource._find_rotated_logs` (log_source.py lines
112-162).  Wildcard paths are skipped (lines 124-125).  Otherwise the
rotation patterns are built and, when the parent directory exists, the
first loop iteration evaluates `glob.glob(...)` (line 143) — but
log_source.py imports only `os`, `re`, `signal`, `logging`, and `abc`
(lines 4-8): the name `glob` is unbound in that module, so the call raises
`NameError` before any sibling can be added.  When the parent directory
does not exist (e.g. `os.path.dirname` of a bare filename is `""`), the
loop body never runs and 0 is returned. -/
def find_rotated_logs (dirExists : String → Bool) (log_path base_name : String)
    (labels : List (String × String)) : Except PyExc Nat :=
  if has_wildcards log_path then Except.ok 0
  else
    let log_dir := dirname log_path
    let _ := base_name
    let _ := labels
    if dirExists log_dir then Except.error PyExc.nameError
    else Except.ok 0

/-! ## Helper lemmas -/

theorem lookup_append_of_none {β : Type} (k : String) (l1 l2 : List (String × β))
    (h : List.lookup k l1 = none) : List.lookup k (l1 ++ l2) = List.lookup k l2 := by
  induction l1 with
  | nil => simp
  | cons a t ih =>
    obtain ⟨k1, v1⟩ := a
    simp only [List.cons_append, List.lookup] at h ⊢
    cases hk : (k == k1) with
    | true => simp [hk] at h
    | false => simp only [hk] at h ⊢; exact ih h

/-- A wildcard path skips the dedup check and the tracking set: the entry is
appended unconditionally. -/
theorem add_log_source_wild (fs : FS) (st : DiscState)
    (t n p f : String) (l : Option (List (String × String))) (e0 : Option Bool)
    (hw : has_wildcards p = true) :
    add_log_source fs st t n p f l e0 =
      ({ st with discovered_logs := st.discovered_logs ++ [builtEntry fs t n p f l e0] },
       some (builtEntry fs t n p f l e0)) := by
  simp [add_log_source, hw]

/-- A non-wildcard path whose normalization is already tracked is rejected
with the state untouched. -/
theorem add_log_source_dup (fs : FS) (st : DiscState)
    (t n p f : String) (l : Option (List (String × String))) (e0 : Option Bool)
    (hw : has_wildcards p = false) (hmem : normpath p ∈ st.log_paths_added) :
    add_log_source fs st t n p f l e0 = (st, none) := by
  simp [add_log_source, hw, hmem]

/-- A non-wildcard path whose normalization is not yet tracked is appended,
and its normalization joins the tracking set. -/
theorem add_log_source_fresh (fs : FS) (st : DiscState)
    (t n p f : String) (l : Option (List (String × String))) (e0 : Option Bool)
    (hw : has_wildcards p = false) (hmem : normpath p ∉ st.log_paths_added) :
    add_log_source fs st t n p f l e0 =
      ({ discovered_logs := st.discovered_logs ++ [builtEntry fs t n p f l e0],
         log_paths_added := normpath p :: st.log_paths_added },
       some (builtEntry fs t n p f l e0)) := by
  simp [add_log_source, hw, hmem]

/-- Whenever `add_log_source` returns an entry, it is `builtEntry`. -/
theorem add_log_source_some_eq (fs : FS) (st : DiscState)
    (t n p f : String) (l : Option (List (String × String))) (e0 : Option Bool)
    (e : LogEntry) (h : (add_log_source fs st t n p f l e0).2 = some e) :
    e = builtEntry fs t n p f l e0 := by
  by_cases hw : has_wildcards p = true
  · rw [add_log_source_wild fs st t n p f l e0 hw] at h
    exact (Option.some.inj h).symm
  · rw [Bool.not_eq_true] at hw
    by_cases hmem : normpath p ∈ st.log_paths_added
    · rw [add_log_source_dup fs st t n p f l e0 hw hmem] at h
      simp at h
    · rw [add_log_source_fresh fs st t n p f l e0 hw hmem] at h
      exact (Option.some.inj h).symm

/-- The stored path of a non-wildcard entry is the normalized input path. -/
theorem builtEntry_path_nonwild (fs : FS)
    (t n p f : String) (l : Option (List (String × String))) (e0 : Option Bool)
    (hw : has_wildcards p = false) :
    (builtEntry fs t n p f l e0).path = normpath p := by
  simp [builtEntry, hw]

/-- The `source` label of a built entry: the caller's value when present,
the source type otherwise. -/
theorem builtEntry_lookup_source (fs : FS)
    (t n p f : String) (l : Option (List (String × String))) (e0 : Option Bool) :
    List.lookup "source" (builtEntry fs t n p f l e0).labels
      = some ((List.lookup "source" (l.getD [])).getD t) := by
  cases hl : List.lookup "source" (l.getD []) with
  | some v => simp [builtEntry, hl]
  | none =>
    simp only [builtEntry, hl, Option.isSome_none, Bool.false_eq_true, if_false,
      Option.getD_none]
    rw [lookup_append_of_none "source" (l.getD []) [("source", t)] hl]
    rfl

/-- One step of `runCallsResults`, phrased through `applyCall`. -/
theorem runCallsResults_cons (fs : FS) (c : Call) (cs : List Call) (st : DiscState) :
    runCallsResults fs (c :: cs) st =
      ((runCallsResults fs cs (applyCall fs st c)).1,
        (add_log_source fs st c.source_type c.name c.path c.format c.labels c.exists0).2 ::
          (runCallsResults fs cs (applyCall fs st c)).2) := rfl

/-- Invariant carried by any sequence of non-wildcard `add_log_source`
calls: inventory paths stay duplicate-free, the tracking set and the
inventory paths hold the same strings, every processed call's normalized
path ends up tracked, and the tracking set only grows. -/
theorem runCalls_inv (fs : FS) (calls : List Call) (st : DiscState)
    (hw : ∀ c ∈ calls, has_wildcards c.path = false)
    (h1 : (pathsOf st).Nodup)
    (h2 : ∀ q, q ∈ st.log_paths_added ↔ q ∈ pathsOf st) :
    (pathsOf (runCalls fs calls st)).Nodup ∧
    (∀ q, q ∈ (runCalls fs calls st).log_paths_added ↔
      q ∈ pathsOf (runCalls fs calls st)) ∧
    (∀ c ∈ calls, normpath c.path ∈ (runCalls fs calls st).log_paths_added) ∧
    (∀ q ∈ st.log_paths_added, q ∈ (runCalls fs calls st).log_paths_added) := by
  induction calls generalizing st with
  | nil =>
    exact ⟨h1, h2, by simp [runCalls, runCallsResults], fun q hq => hq⟩
  | cons c cs ih =>
    have hwc : has_wildcards c.path = false := hw c (List.mem_cons_self c cs)
    have hwcs : ∀ x ∈ cs, has_wildcards x.path = false :=
      fun x hx => hw x (List.mem_cons_of_mem c hx)
    have hrun : runCalls fs (c :: cs) st = runCalls fs cs (applyCall fs st c) := rfl
    by_cases hmem : normpath c.path ∈ st.log_paths_added
    · have hstep : applyCall fs st c = st := by
        simp [applyCall, add_log_source_dup fs st c.source_type c.name c.path c.format
          c.labels c.exists0 hwc hmem]
      rw [hrun, hstep]
      obtain ⟨g1, g2, g3, g4⟩ := ih st hwcs h1 h2
      refine ⟨g1, g2, ?_, g4⟩
      intro x hx
      rcases List.mem_cons.mp hx with hx1 | hx2
      · subst hx1; exact g4 _ hmem
      · exact g3 x hx2
    · have hpath : (builtEntry fs c.source_type c.name c.path c.format c.labels
          c.exists0).path = normpath c.path :=
        builtEntry_path_nonwild fs c.source_type c.name c.path c.format c.labels c.exists0 hwc
      have hstep : applyCall fs st c =
          { discovered_logs := st.discovered_logs ++
              [builtEntry fs c.source_type c.name c.path c.format c.labels c.exists0],
            log_paths_added := normpath c.path :: st.log_paths_added } := by
        simp [applyCall, add_log_source_fresh fs st c.source_type c.name c.path c.format
          c.labels c.exists0 hwc hmem]
      have hnp : normpath c.path ∉ pathsOf st := fun hcontra => hmem ((h2 _).mpr hcontra)
      have hpaths : pathsOf (applyCall fs st c) = pathsOf st ++ [normpath c.path] := by
        rw [hstep]; simp [pathsOf, hpath]
      have h1' : (pathsOf (applyCall fs st c)).Nodup := by
        rw [hpaths, List.nodup_append]
        refine ⟨h1, List.nodup_singleton _, ?_⟩
        intro a ha ha2
        rw [List.mem_singleton] at ha2
        exact hnp (ha2 ▸ ha)
      have h2' : ∀ q, q ∈ (applyCall fs st c).log_paths_added ↔
          q ∈ pathsOf (applyCall fs st c) := by
        intro q
        rw [hpaths, hstep]
        simp only [List.mem_cons, List.mem_append, List.mem_singleton]
        rw [h2 q]
        tauto
      obtain ⟨g1, g2, g3, g4⟩ := ih (applyCall fs st c) hwcs h1' h2'
      rw [hrun]
      refine ⟨g1, g2, ?_, ?_⟩
      · intro x hx
        rcases List.mem_cons.mp hx with hx1 | hx2
        · subst hx1
          refine g4 _ ?_
          rw [hstep]
          exact List.mem_cons_self _ _
        · exact g3 x hx2
      · intro q hq
        refine g4 q ?_
        rw [hstep]
        exact List.mem_cons_of_mem _ hq

/-! ## Claim theorems -/

/-- C2: for every finite sequence of `add_log_source` calls whose paths
contain no wildcard, the resulting `discovered_logs` contains at most one
entry per normalized path, and exactly one for each normalized path some
call supplied.  The sequence is arbitrary, so the property holds regardless
of call order. -/
theorem add_log_source_dedup_invariant (fs : FS) (calls : List Call)
    (hw : ∀ c ∈ calls, has_wildcards c.path = false) (q : String) :
    (pathsOf (runCalls fs calls initState)).count q ≤ 1 ∧
    (q ∈ calls.map (fun c => normpath c.path) →
      (pathsOf (runCalls fs calls initState)).count q = 1) := by
  obtain ⟨g1, g2, g3, _⟩ := runCalls_inv fs calls initState hw
    (by simp [pathsOf, initState]) (by simp [pathsOf, initState])
  refine ⟨List.nodup_iff_count_le_one.mp g1 q, ?_⟩
  intro hq
  obtain ⟨c, hc, hcq⟩ := List.mem_map.mp hq
  exact List.count_eq_one_of_mem g1 ((g2 q).mp (hcq ▸ g3 c hc))

/-- Witness for C2: two spellings of the same path, `/a/./b` and `/a/b`,
produce exactly one inventory entry. -/
theorem add_log_source_dedup_invariant_witness :
    (pathsOf (runCalls fsNone
      [{ source_type := "t", name := "n1", path := "/a/./b", format := "text",
         labels := none, exists0 := none },
       { source_type := "t", name := "n2", path := "/a/b", format := "text",
         labels := none, exists0 := none }] initState)).count "/a/b" = 1 :=
  (add_log_source_dedup_invariant fsNone
    [{ source_type := "t", name := "n1", path := "/a/./b", format := "text",
       labels := none, exists0 := none },
     { source_type := "t", name := "n2", path := "/a/b", format := "text",
       labels := none, exists0 := none }] (by decide) "/a/b").2 (by decide)

/-- C5: a sequence of `add_log_source` calls all using the same wildcard
path appends one fresh entry per call — no membership check applies — and
no call returns `None`. -/
theorem wildcard_paths_never_dedup (fs : FS) (calls : List Call) (st : DiscState)
    (p : String) (hp : ∀ c ∈ calls, c.path = p) (hw : has_wildcards p = true) :
    (runCallsResults fs calls st).1.discovered_logs.length
        = st.discovered_logs.length + calls.length ∧
    ∀ r ∈ (runCallsResults fs calls st).2, r.isSome = true := by
  induction calls generalizing st with
  | nil => simp [runCallsResults]
  | cons c cs ih =>
    have hpc : c.path = p := hp c (List.mem_cons_self c cs)
    have hwc : has_wildcards c.path = true := by rw [hpc]; exact hw
    have hadd := add_log_source_wild fs st c.source_type c.name c.path c.format
      c.labels c.exists0 hwc
    have hcs : ∀ x ∈ cs, x.path = p := fun x hx => hp x (List.mem_cons_of_mem c hx)
    rw [runCallsResults_cons]
    obtain ⟨g1, g2⟩ := ih (applyCall fs st c) hcs
    constructor
    · have hlen : (applyCall fs st c).discovered_logs.length
          = st.discovered_logs.length + 1 := by
        simp [applyCall, hadd]
      rw [g1, hlen]
      simp only [List.length_cons]
      omega
    · intro r hr
      rcases List.mem_cons.mp hr with h1 | h2
      · rw [h1, hadd]
        rfl
      · exact g2 r h2

/-- Witness for C5: two calls with the wildcard path `/logs/*.log` both
append, yielding two entries. -/
theorem wildcard_paths_never_dedup_witness :
    (runCallsResults fsNone
      [{ source_type := "t", name := "n1", path := "/logs/*.log", format := "text",
         labels := none, exists0 := none },
       { source_type := "t", name := "n2", path := "/logs/*.log", format := "text",
         labels := none, exists0 := none }] initState).1.discovered_logs.length = 2 :=
  (wildcard_paths_never_dedup fsNone
    [{ source_type := "t", name := "n1", path := "/logs/*.log", format := "text",
       labels := none, exists0 := none },
     { source_type := "t", name := "n2", path := "/logs/*.log", format := "text",
       labels := none, exists0 := none }] initState "/logs/*.log"
    (by decide) (by decide)).1

/-- C4: an `add_log_source` call with a non-wildcard path whose normalized
form is already in the dedup set returns `None` and leaves both
`discovered_logs` and `log_paths_added` unchanged (the membership check at
log_discovery.py line 413 runs on the normalized path). -/
theorem add_log_source_duplicate_returns_none (fs : FS) (st : DiscState)
    (t n p f : String) (l : Option (List (String × String))) (e0 : Option Bool)
    (hw : has_wildcards p = false) (hmem : normpath p ∈ st.log_paths_added) :
    add_log_source fs st t n p f l e0 = (st, none) :=
  add_log_source_dup fs st t n p f l e0 hw hmem

/-- Witness for C4: after `/a/b` is added, re-adding it as `/a/./b` returns
`None` and changes nothing. -/
theorem add_log_source_duplicate_returns_none_witness :
    add_log_source fsNone
        (add_log_source fsNone initState "t" "n" "/a/b" "text" none none).1
        "t" "n2" "/a/./b" "text" none none
      = ((add_log_source fsNone initState "t" "n" "/a/b" "text" none none).1, none) :=
  add_log_source_duplicate_returns_none fsNone
    (add_log_source fsNone initState "t" "n" "/a/b" "text" none none).1
    "t" "n2" "/a/./b" "text" none none (by decide) (by decide)

/-- C6 counterexample: a scanner passing the relative non-wildcard path
`logs/app.log` gets it stored verbatim — `add_log_source` applies
`os.path.normpath` (a purely lexical cleanup) and never `os.path.abspath`,
so the inventory holds a relative, non-absolute, non-wildcard path. -/
theorem add_log_source_relative_path_counterexample :
    pathsOf (add_log_source fsNone initState "wordpress" "debug" "logs/app.log"
        "text" none none).1 = ["logs/app.log"] ∧
    has_wildcards "logs/app.log" = false ∧
    isabs "logs/app.log" = false := by
  refine ⟨by decide, by decide, by decide⟩

/-- C6 amended: every entry `add_log_source` stores for a non-wildcard path
has the `os.path.normpath`-normalized form of the scanner's input as its
path — normalized, but not necessarily absolute: a relative input stays
relative. -/
theorem add_log_source_normalizes_nonwildcard (fs : FS) (st : DiscState)
    (t n p f : String) (l : Option (List (String × String))) (e0 : Option Bool)
    (e : LogEntry) (hw : has_wildcards p = false)
    (h : (add_log_source fs st t n p f l e0).2 = some e) :
    e.path = normpath p := by
  rw [add_log_source_some_eq fs st t n p f l e0 e h]
  exact builtEntry_path_nonwild fs t n p f l e0 hw

/-- The entry stored for the relative input `logs/x/../app.log`. -/
def entC6 : LogEntry :=
  { type := "wordpress", name := "debug", path := "logs/app.log", format := "text",
    labels := [("source", "wordpress")], existsF := some false,
    last_modified := none, size := none, checksum := none }

/-- Witness for the amended C6: the stored path for the relative input
`logs/x/../app.log` is its (still relative) normalization. -/
theorem add_log_source_normalizes_nonwildcard_witness :
    entC6.path = normpath "logs/x/../app.log" :=
  add_log_source_normalizes_nonwildcard fsNone initState "wordpress" "debug"
    "logs/x/../app.log" "text" none none entC6 (by decide) (by decide)

/-- C9: every entry `add_log_source` appends carries a `source` label:
the caller's own `source` value when supplied, the `source_type` argument
otherwise. -/
theorem add_log_source_source_label (fs : FS) (st : DiscState)
    (t n p f : String) (l : Option (List (String × String))) (e0 : Option Bool)
    (e : LogEntry) (h : (add_log_source fs st t n p f l e0).2 = some e) :
    List.lookup "source" e.labels
      = some ((List.lookup "source" (l.getD [])).getD t) := by
  rw [add_log_source_some_eq fs st t n p f l e0 e h]
  exact builtEntry_lookup_source fs t n p f l e0

/-- The entry stored when the caller supplies labels containing its own
`source` value. -/
def entC9 : LogEntry :=
  { type := "php", name := "err", path := "/x.log", format := "text",
    labels := [("source", "custom")], existsF := some false,
    last_modified := none, size := none, checksum := none }

/-- Witness for C9: a caller-supplied `source` label survives unchanged. -/
theorem add_log_source_source_label_witness :
    List.lookup "source" entC9.labels = some "custom" :=
  add_log_source_source_label fsNone initState "php" "err" "/x.log" "text"
    (some [("source", "custom")]) none entC9 (by decide)

/-- C10: `is_log_already_added` performs no normalization — it is exact
string membership in the tracking set.  Consequently, after a non-wildcard
path `p` is added, the normalized spelling is reported as present while the
original spelling is reported absent whenever `p ≠ normpath p`. -/
theorem is_log_already_added_exact_match (fs : FS) (t n p f : String)
    (hw : has_wildcards p = false) :
    (∀ st q, is_log_already_added st q = true ↔ q ∈ st.log_paths_added) ∧
    is_log_already_added (add_log_source fs initState t n p f none none).1
      (normpath p) = true ∧
    (p ≠ normpath p →
      is_log_already_added (add_log_source fs initState t n p f none none).1 p
        = false) := by
  have hbase : ∀ st q, is_log_already_added st q = true ↔ q ∈ st.log_paths_added := by
    intro st q
    simp [is_log_already_added]
  have hfresh := add_log_source_fresh fs initState t n p f none none hw
    (by simp [initState])
  refine ⟨hbase, ?_, ?_⟩
  · rw [hfresh]
    exact (hbase _ _).mpr (List.mem_cons_self _ _)
  · intro hne
    rw [hfresh]
    rw [Bool.eq_false_iff]
    intro hcontra
    rcases List.mem_cons.mp ((hbase _ _).mp hcontra) with h1 | h2
    · exact hne h1
    · simp [initState] at h2

/-- Witness for C10: after adding `/var//log/app.log`, the original
spelling is not reported as added (only `/var/log/app.log` is). -/
theorem is_log_already_added_exact_match_witness :
    is_log_already_added (add_log_source fsNone initState "t" "n"
      "/var//log/app.log" "text" none none).1 "/var//log/app.log" = false :=
  (is_log_already_added_exact_match fsNone "t" "n" "/var//log/app.log" "text"
    (by decide)).2.2 (by decide)

/-- C1 (code-bug evidence): on a filesystem where the parent directory
`/logs` exists (the scenario has it hold `app.log`, `app.log.1`,
`app.log.2.gz` and `unrelated.log`), the rotation-sibling search for the
concrete path `/logs/app.log` raises `NameError` — log_source.py never
imports `glob`, so `glob.glob` at line 143 is an unbound name — instead of
adding the two rotated variants and returning 2. -/
theorem find_rotated_logs_raises_on_existing_dir :
    find_rotated_logs (fun d => d == "/logs") "/logs/app.log" "app" []
      = Except.error PyExc.nameError := rfl

/-- Plugin that discovers one log and returns normally. -/
def plugOne : PluginRun := fun st =>
  ((add_log_source fsNone st "openlitespeed" "one" "/one.log" "text" none none).1,
   Except.ok 1)

/-- Plugin whose `discover()` is interrupted by the run-level SIGALRM: the
signal handler raises `TimeoutError` inside the plugin frame. -/
def plugAlarm : PluginRun := fun st => (st, Except.error PyExc.timeoutError)

/-- Plugin that discovers one more log and returns normally. -/
def plugThree : PluginRun := fun st =>
  ((add_log_source fsNone st "mysql" "three" "/three.log" "text" none none).1,
   Except.ok 1)

/-- C3 (code-bug evidence): when the wall-clock budget expires while the
second of three plugins is executing `discover()`, the raised
`TimeoutError` is caught by the per-plugin `except Exception`
(log_discovery.py line 201): the run keeps launching plugins, the third
plugin still contributes an entry, and the returned metadata carries no
`status = "incomplete"` — the outer `except TimeoutError` handler that
would produce it is never reached. -/
theorem discover_all_swallows_timeout_in_plugin :
    (discover_all none none [("p1", plugOne), ("p2", plugAlarm), ("p3", plugThree)]
        none initState).status = none ∧
    ((discover_all none none [("p1", plugOne), ("p2", plugAlarm), ("p3", plugThree)]
        none initState).sources.map LogEntry.name) = ["one", "three"] :=
  ⟨rfl, rfl⟩

/-- C7: with both filter lists supplied (nonempty, as the CLI's
comma-splitting always produces), the executed plugin set is the
include-restriction of all plugins minus the exclude-list — exclude applied
after include — and appending a tag matching no plugin to either list
changes nothing; the filtering is a total function, so no error is
raised. -/
theorem include_exclude_filtering {α : Type} (inc exc : List String)
    (sources : List (String × α)) (u : String)
    (hinc : inc ≠ []) (hexc : exc ≠ []) (hu : ∀ kv ∈ sources, kv.1 ≠ u) :
    applyIncludeExclude (some inc) (some exc) sources
      = (sources.filter (fun kv => List.contains inc kv.1)).filter
          (fun kv => !(List.contains exc kv.1)) ∧
    applyIncludeExclude (some (inc ++ [u])) (some exc) sources
      = applyIncludeExclude (some inc) (some exc) sources ∧
    applyIncludeExclude (some inc) (some (exc ++ [u])) sources
      = applyIncludeExclude (some inc) (some exc) sources := by
  obtain ⟨i, is, rfl⟩ : ∃ i is, inc = i :: is := by
    cases inc with
    | nil => exact absurd rfl hinc
    | cons a b => exact ⟨a, b, rfl⟩
  obtain ⟨e, es, rfl⟩ : ∃ e es, exc = e :: es := by
    cases exc with
    | nil => exact absurd rfl hexc
    | cons a b => exact ⟨a, b, rfl⟩
  have hcontains : ∀ (l : List String) (x : String), x ≠ u →
      List.contains (l ++ [u]) x = List.contains l x := by
    intro l x hx
    rw [Bool.eq_iff_iff]
    simp [List.mem_append, hx]
  refine ⟨rfl, ?_, ?_⟩
  · simp only [applyIncludeExclude, List.cons_append]
    congr 1
    refine List.filter_congr ?_
    intro kv hkv
    exact hcontains (i :: is) kv.1 (hu kv hkv)
  · simp only [applyIncludeExclude, List.cons_append]
    refine List.filter_congr ?_
    intro kv hkv
    have hmem : kv ∈ sources := (List.mem_filter.mp hkv).1
    have := hcontains (e :: es) kv.1 (hu kv hmem)
    rw [List.cons_append] at this
    rw [this]

/-- Witness for C7: the unknown tag `zz` appended to the include-list does
not change the filtered plugin set. -/
theorem include_exclude_filtering_witness :
    applyIncludeExclude (some ["openlitespeed", "zz"]) (some ["mysql"])
        [("openlitespeed", 1), ("mysql", 2), ("php", 3)]
      = applyIncludeExclude (some ["openlitespeed"]) (some ["mysql"])
        [("openlitespeed", 1), ("mysql", 2), ("php", 3)] :=
  (include_exclude_filtering ["openlitespeed"] ["mysql"]
    [("openlitespeed", 1), ("mysql", 2), ("php", 3)] "zz"
    (by decide) (by decide) (by decide)).2.1

/-- C8: the bounded file read returns the file's content or the empty
string; every per-file failure — unreadable file, missing file, permission
error, decode error, timed-out read — yields `""`, and the function is
total, so no exception reaches the caller. -/
theorem load_file_content_total (fs : FileFS) (path : String) :
    load_file_content fs path = "" ∨
    fs.read path = Except.ok (load_file_content fs path) := by
  unfold load_file_content
  cases hfr : file_readable fs path with
  | false => simp
  | true =>
    cases hr : fs.read path with
    | ok c => right; simp
    | error e => left; simp

end LogDiscovery
